import Mathlib

/-!
Verification of the LearnWeb client script (js/main.js together with the
extended variant of the same script shipped in the repository, which adds
CourseProgress.unset and the manual mark-complete UI).  The script keeps
per-course lesson progress and a theme preference in localStorage, highlights
the current navigation link, manages a mobile menu and computes a reading
time for the content region.  JavaScript values, localStorage contents and
the relevant DOM state are embedded shallowly below, and the specified
properties are settled by machine-checked theorems.
-/

namespace LearnWeb

/-- JavaScript values as the script manipulates them: everything JSON.parse
can produce, plus undefined, which property access on a parsed value can
yield.  Numbers are integral in every value the script stores or compares;
an object is its ordered field list. -/
inductive JSVal : Type where
  | undefined : JSVal
  | null : JSVal
  | bool : Bool → JSVal
  | num : Int → JSVal
  | str : String → JSVal
  | arr : List JSVal → JSVal
  | obj : List (String × JSVal) → JSVal

/-- The only runtime error the modelled code paths can raise. -/
inductive JSErr : Type where
  | typeError : JSErr
deriving DecidableEq

/-- JavaScript truthiness of the modelled values.  Arrays and objects are
always truthy, in particular the empty array. -/
def truthy : JSVal → Bool
  | .undefined => false
  | .null => false
  | .bool b => b
  | .num n => n != 0
  | .str s => s != ""
  | .arr _ => true
  | .obj _ => true

/-- First binding of a key in an object field list (JSON.parse keeps at most
one binding per key, the last one written, so the stored objects the script
reads have unique keys). -/
def lookupField : List (String × JSVal) → String → Option JSVal
  | [], _ => none
  | (k, v) :: rest, key => if k == key then some v else lookupField rest key

/-- Property access `v.key` as the script performs it: a TypeError on
undefined and null, the field (or undefined) on an object, and undefined on
the remaining values, none of which has an own property named `lessons`. -/
def getField : JSVal → String → Except JSErr JSVal
  | .undefined, _ => .error .typeError
  | .null, _ => .error .typeError
  | .obj fs, key => .ok ((lookupField fs key).getD .undefined)
  | _, _ => .ok .undefined

/-- JavaScript strict equality between a parsed value and a string: true
exactly when the value is that string (`===` never coerces). -/
def jsStrEq (v : JSVal) (s : String) : Bool :=
  match v with
  | .str t => t == s
  | _ => false

/-- Whether the first character list begins the second. -/
def listLeads : List Char → List Char → Bool
  | [], _ => true
  | _ :: _, [] => false
  | a :: as, b :: bs => a == b && listLeads as bs

/-- Whether the first character list occurs contiguously inside the second. -/
def listInside (needle : List Char) : List Char → Bool
  | [] => needle.isEmpty
  | c :: rest => listLeads needle (c :: rest) || listInside needle rest

/-- String.prototype.includes with a string argument: substring test. -/
def strIncludes (s arg : String) : Bool := listInside arg.data s.data

/-- A method call `v.includes(lessonId)`: the array membership test under
strict equality on arrays, the substring test on strings, and a TypeError on
every other receiver (no callable `includes` there). -/
def includesCall (v : JSVal) (lessonId : String) : Except JSErr JSVal :=
  match v with
  | .arr l => .ok (.bool (l.any (fun e => jsStrEq e lessonId)))
  | .str s => .ok (.bool (strIncludes s lessonId))
  | _ => .error .typeError

/-- A method call `v.push(x)`: appends on an array (the script then
serialises the mutated object), a TypeError on every other receiver. -/
def pushCall (v : JSVal) (x : JSVal) : Except JSErr JSVal :=
  match v with
  | .arr l => .ok (.arr (l ++ [x]))
  | _ => .error .typeError

/-- A method call `v.filter(id => id !== lessonId)`: keeps the array
elements strictly different from the string lessonId, a TypeError on every
other receiver. -/
def filterNeqCall (v : JSVal) (lessonId : String) : Except JSErr JSVal :=
  match v with
  | .arr l => .ok (.arr (l.filter (fun e => !jsStrEq e lessonId)))
  | _ => .error .typeError

/-- Property assignment on an object field list: an existing key keeps its
position, a new key is appended (JavaScript property order). -/
def setFieldList (fs : List (String × JSVal)) (key : String) (v : JSVal) :
    List (String × JSVal) :=
  if fs.any (fun p => p.fst == key) then
    fs.map (fun p => if p.fst == key then (key, v) else p)
  else fs ++ [(key, v)]

/-- Property assignment `j.key = v`, only ever reached on objects in the
modelled code paths. -/
def setField (j : JSVal) (key : String) (v : JSVal) : JSVal :=
  match j with
  | .obj fs => .obj (setFieldList fs key v)
  | _ => j

/-- What localStorage holds under one key, as far as JSON.parse is
concerned: absent (getItem returns null; a stored empty string is falsy and
behaves identically in every code path below), a string JSON.parse rejects,
or a string JSON.parse turns into the JSON value j. -/
inductive StoredJSON : Type where
  | absent : StoredJSON
  | notJSON : StoredJSON
  | json : JSVal → StoredJSON

/-- The progress entries of localStorage.  Course c is stored under the key
"learnweb_progress_" ++ c; the prefix is fixed, so distinct courses use
distinct keys and the progress portion of the storage is a map from course
identifiers. -/
abbrev ProgressStore : Type := String → StoredJSON

/-- The completion set (spec section 3) carried by one stored record: the
lessons array when the record is a JSON object whose lessons field is an
array, otherwise empty. -/
def completionSet : StoredJSON → List JSVal
  | .json (.obj fs) =>
    match lookupField fs "lessons" with
    | some (.arr l) => l
    | _ => []
  | _ => []

namespace CourseProgress

/-- Record-level core of CourseProgress.get: `if (!data) return false;` then
inside try/catch `return progress.lessons && progress.lessons.includes
(lessonId)` with the catch returning false.  Both the property access and
the includes call sit inside the try, so a TypeError there yields false; a
falsy lessons field makes `&&` return that field itself. -/
def getVal (sv : StoredJSON) (lessonId : String) : JSVal :=
  match sv with
  | .absent => .bool false
  | .notJSON => .bool false
  | .json progress =>
    match getField progress "lessons" with
    | .error _ => .bool false
    | .ok lessons =>
      if truthy lessons then
        match includesCall lessons lessonId with
        | .error _ => .bool false
        | .ok r => r
      else lessons

/-- Record-level core of CourseProgress.set.  The default record is
`lessons: []`; a stored string that parses replaces it, a parse failure is
caught and keeps the default.  The guard `if (!progress.lessons.includes
(lessonId))` runs outside any try/catch: a TypeError thrown there escapes
before any write.  Result: `.ok none` when the guard is falsy (no setItem),
`.ok (some sv)` when the pushed record sv is written, `.error` when the
guard throws. -/
def setVal (sv : StoredJSON) (lessonId : String) :
    Except JSErr (Option StoredJSON) :=
  let progress : JSVal :=
    match sv with
    | .json j => j
    | _ => .obj [("lessons", .arr [])]
  match getField progress "lessons" with
  | .error e => .error e
  | .ok lessons =>
    match includesCall lessons lessonId with
    | .error e => .error e
    | .ok included =>
      if truthy included then .ok none
      else
        match pushCall lessons (.str lessonId) with
        | .error e => .error e
        | .ok newLessons => .ok (some (setField progress "lessons" newLessons |> .json))

/-- Record-level core of CourseProgress.unset (extended script variant):
`if (!existing) return;` then inside try/catch the filter, the assignment
and the write, with every error caught and ignored.  Result: the written
record, or none when nothing is written. -/
def unsetVal (sv : StoredJSON) (lessonId : String) : Option StoredJSON :=
  match sv with
  | .absent => none
  | .notJSON => none
  | .json progress =>
    match getField progress "lessons" with
    | .error _ => none
    | .ok lessons =>
      match filterNeqCall lessons lessonId with
      | .error _ => none
      | .ok filtered => some (setField progress "lessons" filtered |> .json)

/-- Record-level core of CourseProgress.getAll: missing or unparseable data
gives [], a caught TypeError gives [], otherwise `progress.lessons || []`
(`||` keeps a truthy lessons field, whatever its type). -/
def getAllVal (sv : StoredJSON) : JSVal :=
  match sv with
  | .absent => .arr []
  | .notJSON => .arr []
  | .json progress =>
    match getField progress "lessons" with
    | .error _ => .arr []
    | .ok lessons => if truthy lessons then lessons else .arr []

/-- CourseProgress.get: reads the record stored for the course. -/
def get (store : ProgressStore) (courseId lessonId : String) : JSVal :=
  getVal (store courseId) lessonId

/-- CourseProgress.set: reads the record for the course and either writes
the updated record back under the same key, returns without writing, or
throws.  The returned flag records whether setItem ran. -/
def set (store : ProgressStore) (courseId lessonId : String) :
    Except JSErr (ProgressStore × Bool) :=
  match setVal (store courseId) lessonId with
  | .error e => .error e
  | .ok none => .ok (store, false)
  | .ok (some sv) => .ok (fun c => if c == courseId then sv else store c, true)

/-- The progress store after CourseProgress.set: the only throwing point is
the guard, which runs before any write, so the storage is unchanged when the
call throws. -/
def setAfter (store : ProgressStore) (courseId lessonId : String) :
    ProgressStore :=
  match set store courseId lessonId with
  | .ok (s, _) => s
  | .error _ => store

/-- CourseProgress.unset: writes the filtered record back under the course
key, or leaves the storage untouched when it returns early or catches. -/
def unset (store : ProgressStore) (courseId lessonId : String) :
    ProgressStore :=
  match unsetVal (store courseId) lessonId with
  | none => store
  | some sv => fun c => if c == courseId then sv else store c

/-- CourseProgress.getAll: reads the record stored for the course. -/
def getAll (store : ProgressStore) (courseId : String) : JSVal :=
  getAllVal (store courseId)

end CourseProgress

/-- The .theme-toggle button attributes ThemeManager maintains. -/
structure ThemeButton : Type where
  ariaLabel : String
  title : String
deriving DecidableEq

/-- The state ThemeManager reads and writes: the learnweb_theme entry of
localStorage, the data-theme attribute on the document element, the current
OS dark preference reported by matchMedia, and the toggle button and its
icon, each absent when the page does not contain the element. -/
structure ThemeState : Type where
  stored : Option String
  docTheme : Option String
  osDark : Bool
  toggleBtn : Option ThemeButton
  themeIcon : Option String
deriving DecidableEq

namespace ThemeManager

/-- ThemeManager.getTheme: a truthy stored value wins (the empty string is
falsy and falls through), else the OS preference, else light. -/
def getTheme (s : ThemeState) : String :=
  match s.stored with
  | some stored => if stored != "" then stored else if s.osDark then "dark" else "light"
  | none => if s.osDark then "dark" else "light"

/-- ThemeManager.updateToggleButton: with both .theme-toggle and .theme-icon
present, shows the state a press would switch to; otherwise returns with no
effect. -/
def updateToggleButton (s : ThemeState) (theme : String) : ThemeState :=
  match s.toggleBtn, s.themeIcon with
  | some _, some _ =>
    if theme == "dark" then
      { s with themeIcon := some "light_mode",
               toggleBtn := some { ariaLabel := "Switch to light mode",
                                   title := "Switch to light mode" } }
    else
      { s with themeIcon := some "dark_mode",
               toggleBtn := some { ariaLabel := "Switch to dark mode",
                                   title := "Switch to dark mode" } }
  | _, _ => s

/-- ThemeManager.setTheme: writes the data-theme attribute, persists the
value and updates the toggle button. -/
def setTheme (s : ThemeState) (theme : String) : ThemeState :=
  updateToggleButton { s with docTheme := some theme, stored := some theme } theme

/-- ThemeManager.toggle: flips light to dark and anything else to light. -/
def toggle (s : ThemeState) : ThemeState :=
  let currentTheme := getTheme s
  let newTheme := if currentTheme == "light" then "dark" else "light"
  setTheme s newTheme

/-- The prefers-color-scheme change listener ThemeManager.init registers:
when nothing truthy is stored it applies the theme matching the notification,
otherwise it does nothing.  The notification itself updates what matchMedia
reports. -/
def onSystemThemeChange (s : ThemeState) (nowDark : Bool) : ThemeState :=
  let s1 : ThemeState := { s with osDark := nowDark }
  match s.stored with
  | some stored =>
    if stored != "" then s1 else setTheme s1 (if nowDark then "dark" else "light")
  | none => setTheme s1 (if nowDark then "dark" else "light")

end ThemeManager

/-- The DOM state MobileMenu reads and writes: presence of the
.mobile-menu-toggle button and its aria-expanded attribute, the class list
of .nav-list (absent element modelled as none), and the text of .menu-icon
(none when absent). -/
structure MenuDom : Type where
  togglePresent : Bool
  ariaExpanded : Option String
  navList : Option (List String)
  menuIcon : Option String
deriving DecidableEq

namespace MobileMenu

/-- MobileMenu.isOpen: `menuList && menuList.classList.contains('is-open')`. -/
def isOpen (d : MenuDom) : Bool :=
  match d.navList with
  | some cls => cls.contains "is-open"
  | none => false

/-- MobileMenu.close: with toggle button, nav list and icon all present,
removes the is-open class, sets aria-expanded to false and restores the
closed-state glyph; otherwise returns with no effect. -/
def close (d : MenuDom) : MenuDom :=
  match d.togglePresent, d.navList, d.menuIcon with
  | true, some cls, some _ =>
    { d with navList := some (cls.filter (fun c => c != "is-open")),
             ariaExpanded := some "false",
             menuIcon := some "menu" }
  | _, _, _ => d

/-- The resize listener MobileMenu.init registers: close when the viewport
is wider than 768 and the menu is open. -/
def onResize (d : MenuDom) (innerWidth : Int) : MenuDom :=
  if innerWidth > 768 && isOpen d then close d else d

end MobileMenu

/-- One navigation link as updateNavigation sees it: the pathname of its
resolved href and its aria-current attribute. -/
structure NavLink : Type where
  path : String
  ariaCurrent : Option String
deriving DecidableEq

/-- updateNavigation: marks a link current when its path equals the current
path, or when the current path begins with the link path and the link path
is not the root; every other link has the marker removed. -/
def updateNavigation (currentPath : String) (navLinks : List NavLink) :
    List NavLink :=
  navLinks.map fun link =>
    if link.path == currentPath ||
        (currentPath.startsWith link.path && link.path != "/") then
      { link with ariaCurrent := some "page" }
    else
      { link with ariaCurrent := none }

/-- One scroll notification: the window scroll offset, the viewport height
and the document scroll height at the time the handler runs. -/
structure ScrollEvent : Type where
  scrollY : Int
  innerHeight : Int
  scrollHeight : Int
deriving DecidableEq

/-- The state the scroll handler of initProgressTracking accumulates: the
`marked` latch, the progress storage, and counters for the calls made to
CourseProgress.set and for the setItem writes those calls performed. -/
structure TrackState : Type where
  marked : Bool
  store : ProgressStore
  setCalls : Nat
  writes : Nat

/-- One run of the scroll handler: return immediately once marked; when the
scroll position reaches 100 of the document bottom, call CourseProgress.set
and then set the latch.  A TypeError thrown by set aborts the handler before
`marked = true`, leaving the latch clear. -/
def scrollStep (courseId lessonId : String) (st : TrackState)
    (e : ScrollEvent) : TrackState :=
  if st.marked then st
  else
    let scrollPosition := e.scrollY + e.innerHeight
    let pageHeight := e.scrollHeight
    if scrollPosition ≥ pageHeight - 100 then
      match CourseProgress.set st.store courseId lessonId with
      | .ok (s2, wrote) =>
        { marked := true, store := s2, setCalls := st.setCalls + 1,
          writes := st.writes + (if wrote then 1 else 0) }
      | .error _ =>
        { st with setCalls := st.setCalls + 1 }
    else st

/-- The scroll events of one page view processed in order, starting from the
fresh latch initProgressTracking creates. -/
def runScrollEvents (courseId lessonId : String) (store : ProgressStore)
    (events : List ScrollEvent) : TrackState :=
  events.foldl (scrollStep courseId lessonId)
    { marked := false, store := store, setCalls := 0, writes := 0 }

/-- Whether one scroll event satisfies the trigger
`scrollPosition >= pageHeight - 100`. -/
def reachesBottom (e : ScrollEvent) : Bool :=
  e.scrollY + e.innerHeight ≥ e.scrollHeight - 100

/-- Character-level whitespace, as the split pattern of calculateReadTime
matches it on the content the site carries. -/
def isWS (c : Char) : Bool := c.isWhitespace

/-- text.trim(): strips leading and trailing whitespace.  The region text is
modelled as its character list. -/
def jsTrim (cs : List Char) : List Char :=
  ((cs.dropWhile isWS).reverse.dropWhile isWS).reverse

/-- The number of maximal non-whitespace runs of a character list; the flag
records whether the previous character was inside a run. -/
def runCount : List Char → Bool → Nat
  | [], _ => 0
  | c :: rest, inWord =>
    if isWS c then runCount rest false
    else (if inWord then 0 else 1) + runCount rest true

/-- The wordCount of calculateReadTime: the length of text.trim() split on
whitespace runs.  On the trimmed text the split returns exactly the maximal
non-whitespace runs, except that splitting the empty string returns a single
empty token, so an empty or all-whitespace region counts 1. -/
def jsWordCount (text : List Char) : Nat :=
  let t := jsTrim text
  if t.isEmpty then 1 else runCount t false

/-- Math.ceil(wordCount / 200): for the natural word counts involved the
double division is correctly rounded and its ceiling equals the exact
rational ceiling, (n + 199) / 200 in natural division. -/
def readingTimeOf (wordCount : Nat) : Nat := (wordCount + 199) / 200

/-- One element carrying the data-read-time marker: the text of its
.read-time-text child, none when the child is missing. -/
structure ReadTimeMarker : Type where
  readTimeText : Option String
deriving DecidableEq

/-- calculateReadTime: for every marker element, finds the first
.article-body or .lesson-content region (none when the page has neither and
the iteration returns early), computes the reading time from its text and
writes it into the .read-time-text child when that child exists. -/
def calculateReadTime (articleBody : Option (List Char))
    (markers : List ReadTimeMarker) : List ReadTimeMarker :=
  markers.map fun el =>
    match articleBody with
    | none => el
    | some text =>
      match el.readTimeText with
      | none => el
      | some _ =>
        let rendered := toString (readingTimeOf (jsWordCount text)) ++ " min read"
        { el with readTimeText := some rendered }

/-- The word count of a content region as the specification uses the
phrase, stated from the wording of the spec for comparison with the
implementation: the number of whitespace-separated words in the region text,
zero for an empty or all-whitespace region. -/
def specWordCount (text : List Char) : Nat := runCount text false

/-! ### Helper lemmas -/

/-- Strict equality against a string holds exactly for that string value. -/
theorem jsStrEq_eq_true_iff (v : JSVal) (s : String) :
    jsStrEq v s = true ↔ v = .str s := by
  cases v <;> simp [jsStrEq]

/-- After replacing an existing binding, lookup finds the new value. -/
theorem lookupField_map_set (fs : List (String × JSVal)) (key : String)
    (v : JSVal) (h : fs.any (fun p => p.fst == key) = true) :
    lookupField (fs.map (fun p => if p.fst == key then (key, v) else p)) key
      = some v := by
  induction fs with
  | nil => simp at h
  | cons p rest ih =>
    obtain ⟨k, w⟩ := p
    rw [List.map_cons]
    cases hk : (k == key) with
    | true =>
      simp only [hk, if_true]
      simp [lookupField]
    | false =>
      simp only [List.any_cons, hk, Bool.false_or] at h
      simp only [hk, Bool.false_eq_true, if_false]
      simpa [lookupField, hk] using ih h

/-- After appending a fresh binding, lookup finds it. -/
theorem lookupField_append_new (fs : List (String × JSVal)) (key : String)
    (v : JSVal) (h : fs.any (fun p => p.fst == key) = false) :
    lookupField (fs ++ [(key, v)]) key = some v := by
  induction fs with
  | nil => simp [lookupField]
  | cons p rest ih =>
    simp only [List.any_cons, Bool.or_eq_false_iff] at h
    simp [lookupField, h.1, ih h.2]

/-- Lookup after property assignment returns the assigned value. -/
theorem lookupField_setFieldList (fs : List (String × JSVal)) (key : String)
    (v : JSVal) :
    lookupField (setFieldList fs key v) key = some v := by
  unfold setFieldList
  cases hany : fs.any (fun p => p.fst == key) with
  | true => simpa using lookupField_map_set fs key v hany
  | false => simpa using lookupField_append_new fs key v hany

/-- updateToggleButton never changes the persisted value. -/
theorem updateToggleButton_stored (s : ThemeState) (theme : String) :
    (ThemeManager.updateToggleButton s theme).stored = s.stored := by
  unfold ThemeManager.updateToggleButton
  cases s.toggleBtn <;> cases s.themeIcon <;>
    by_cases h : (theme == "dark") = true <;> simp [h]

/-- updateToggleButton never changes the document theme attribute. -/
theorem updateToggleButton_docTheme (s : ThemeState) (theme : String) :
    (ThemeManager.updateToggleButton s theme).docTheme = s.docTheme := by
  unfold ThemeManager.updateToggleButton
  cases s.toggleBtn <;> cases s.themeIcon <;>
    by_cases h : (theme == "dark") = true <;> simp [h]

/-- setTheme persists exactly its argument. -/
theorem setTheme_stored (s : ThemeState) (theme : String) :
    (ThemeManager.setTheme s theme).stored = some theme := by
  unfold ThemeManager.setTheme
  rw [updateToggleButton_stored]

/-- setTheme writes exactly its argument to the document attribute. -/
theorem setTheme_docTheme (s : ThemeState) (theme : String) :
    (ThemeManager.setTheme s theme).docTheme = some theme := by
  unfold ThemeManager.setTheme
  rw [updateToggleButton_docTheme]

/-- completionSet of a record whose lessons field is an array. -/
theorem completionSet_obj_arr (fs : List (String × JSVal)) (la : List JSVal)
    (h : lookupField fs "lessons" = some (.arr la)) :
    completionSet (.json (.obj fs)) = la := by
  simp [completionSet, h]

/-- Characterisation of a CourseProgress.set write on a record holding an
array of lessons and not yet holding the new one: the written record is the
object with the lesson appended. -/
theorem setVal_obj_arr_push (fs : List (String × JSVal)) (la : List JSVal)
    (l : String) (hlk : lookupField fs "lessons" = some (.arr la))
    (hany : la.any (fun e => jsStrEq e l) = false) :
    CourseProgress.setVal (.json (.obj fs)) l =
      .ok (some (.json (.obj (setFieldList fs "lessons" (.arr (la ++ [.str l])))))) := by
  simp [CourseProgress.setVal, getField, hlk, includesCall, hany, truthy,
    pushCall, setField]

/-- Characterisation of CourseProgress.set on a record already holding the
lesson: the guard is truthy, nothing is written. -/
theorem setVal_obj_arr_mem (fs : List (String × JSVal)) (la : List JSVal)
    (l : String) (hlk : lookupField fs "lessons" = some (.arr la))
    (hany : la.any (fun e => jsStrEq e l) = true) :
    CourseProgress.setVal (.json (.obj fs)) l = .ok none := by
  simp [CourseProgress.setVal, getField, hlk, includesCall, hany, truthy]

/-- CourseProgress.set on an absent (or unparseable) record writes the
singleton record. -/
theorem setVal_absent (l : String) :
    CourseProgress.setVal .absent l =
      .ok (some (.json (.obj [("lessons", .arr [.str l])]))) := by
  simp [CourseProgress.setVal, getField, lookupField, includesCall, truthy,
    pushCall, setField, setFieldList]

/-- A lesson in the completion set makes CourseProgress.set return without
writing. -/
theorem setVal_of_mem (sv : StoredJSON) (l : String)
    (h : JSVal.str l ∈ completionSet sv) :
    CourseProgress.setVal sv l = .ok none := by
  cases sv with
  | absent => simp [completionSet] at h
  | notJSON => simp [completionSet] at h
  | json j =>
    cases j with
    | obj fs =>
      rcases hlk : lookupField fs "lessons" with _ | v
      · simp [completionSet, hlk] at h
      · cases v with
        | arr la =>
          have hm : JSVal.str l ∈ la := by
            rwa [completionSet_obj_arr fs la hlk] at h
          apply setVal_obj_arr_mem fs la l hlk
          exact List.any_eq_true.mpr ⟨_, hm, by simp [jsStrEq]⟩
        | undefined => simp [completionSet, hlk] at h
        | null => simp [completionSet, hlk] at h
        | bool b => simp [completionSet, hlk] at h
        | num n => simp [completionSet, hlk] at h
        | str t => simp [completionSet, hlk] at h
        | obj gs => simp [completionSet, hlk] at h
    | undefined => simp [completionSet] at h
    | null => simp [completionSet] at h
    | bool b => simp [completionSet] at h
    | num n => simp [completionSet] at h
    | str t => simp [completionSet] at h
    | arr a => simp [completionSet] at h

/-- A successful CourseProgress.set write preserves a duplicate-free
completion set. -/
theorem setVal_some_nodup (sv : StoredJSON) (l : String) (sv2 : StoredJSON)
    (h : CourseProgress.setVal sv l = .ok (some sv2))
    (hn : (completionSet sv).Nodup) : (completionSet sv2).Nodup := by
  cases sv with
  | absent =>
    rw [setVal_absent] at h
    simp only [Except.ok.injEq, Option.some.injEq] at h
    subst h
    simp [completionSet, lookupField]
  | notJSON =>
    have h' : CourseProgress.setVal .absent l = .ok (some sv2) := h
    rw [setVal_absent] at h'
    simp only [Except.ok.injEq, Option.some.injEq] at h'
    subst h'
    simp [completionSet, lookupField]
  | json j =>
    cases j with
    | undefined => simp [CourseProgress.setVal, getField] at h
    | null => simp [CourseProgress.setVal, getField] at h
    | bool b => simp [CourseProgress.setVal, getField, includesCall] at h
    | num n => simp [CourseProgress.setVal, getField, includesCall] at h
    | str t => simp [CourseProgress.setVal, getField, includesCall] at h
    | arr a => simp [CourseProgress.setVal, getField, includesCall] at h
    | obj fs =>
      rcases hlk : lookupField fs "lessons" with _ | v
      · simp [CourseProgress.setVal, getField, hlk, includesCall] at h
      · cases v with
        | arr la =>
          cases hany : la.any (fun e => jsStrEq e l) with
          | true => rw [setVal_obj_arr_mem fs la l hlk hany] at h; simp at h
          | false =>
            rw [setVal_obj_arr_push fs la l hlk hany] at h
            simp only [Except.ok.injEq, Option.some.injEq] at h
            subst h
            rw [completionSet_obj_arr _ _ (lookupField_setFieldList fs "lessons" _)]
            have hnla : la.Nodup := by rwa [completionSet_obj_arr fs la hlk] at hn
            have hnm : JSVal.str l ∉ la := by
              intro hmem
              have hm2 : la.any (fun e => jsStrEq e l) = true :=
                List.any_eq_true.mpr ⟨_, hmem, by simp [jsStrEq]⟩
              rw [hany] at hm2
              exact Bool.false_ne_true hm2
            simp [List.nodup_append, hnla, hnm]
        | undefined => simp [CourseProgress.setVal, getField, hlk, includesCall] at h
        | null => simp [CourseProgress.setVal, getField, hlk, includesCall] at h
        | bool b => simp [CourseProgress.setVal, getField, hlk, includesCall, truthy] at h
        | num n => simp [CourseProgress.setVal, getField, hlk, includesCall, truthy] at h
        | str t =>
          cases hinc : strIncludes t l with
          | true =>
            simp [CourseProgress.setVal, getField, hlk, includesCall, truthy, hinc] at h
          | false =>
            simp [CourseProgress.setVal, getField, hlk, includesCall, truthy, hinc,
              pushCall] at h
        | obj gs => simp [CourseProgress.setVal, getField, hlk, includesCall] at h

/-- A CourseProgress.unset write preserves a duplicate-free completion set. -/
theorem unsetVal_some_nodup (sv : StoredJSON) (l : String) (sv2 : StoredJSON)
    (h : CourseProgress.unsetVal sv l = some sv2)
    (hn : (completionSet sv).Nodup) : (completionSet sv2).Nodup := by
  cases sv with
  | absent => simp [CourseProgress.unsetVal] at h
  | notJSON => simp [CourseProgress.unsetVal] at h
  | json j =>
    cases j with
    | undefined => simp [CourseProgress.unsetVal, getField] at h
    | null => simp [CourseProgress.unsetVal, getField] at h
    | bool b => simp [CourseProgress.unsetVal, getField, filterNeqCall] at h
    | num n => simp [CourseProgress.unsetVal, getField, filterNeqCall] at h
    | str t => simp [CourseProgress.unsetVal, getField, filterNeqCall] at h
    | arr a => simp [CourseProgress.unsetVal, getField, filterNeqCall] at h
    | obj fs =>
      rcases hlk : lookupField fs "lessons" with _ | v
      · simp [CourseProgress.unsetVal, getField, hlk, filterNeqCall] at h
      · cases v with
        | arr la =>
          have h' : sv2 =
              .json (.obj (setFieldList fs "lessons"
                (.arr (la.filter (fun e => !jsStrEq e l))))) := by
            have := h
            simp [CourseProgress.unsetVal, getField, hlk, filterNeqCall,
              setField] at this
            exact this.symm
          subst h'
          rw [completionSet_obj_arr _ _ (lookupField_setFieldList fs "lessons" _)]
          have hnla : la.Nodup := by rwa [completionSet_obj_arr fs la hlk] at hn
          exact hnla.filter _
        | undefined => simp [CourseProgress.unsetVal, getField, hlk, filterNeqCall] at h
        | null => simp [CourseProgress.unsetVal, getField, hlk, filterNeqCall] at h
        | bool b => simp [CourseProgress.unsetVal, getField, hlk, filterNeqCall] at h
        | num n => simp [CourseProgress.unsetVal, getField, hlk, filterNeqCall] at h
        | str t => simp [CourseProgress.unsetVal, getField, hlk, filterNeqCall] at h
        | obj gs => simp [CourseProgress.unsetVal, getField, hlk, filterNeqCall] at h

/-- A character list of whitespace contains no word. -/
theorem runCount_eq_zero_of_allWS (cs : List Char)
    (h : ∀ c ∈ cs, isWS c = true) (b : Bool) : runCount cs b = 0 := by
  induction cs generalizing b with
  | nil => rfl
  | cons c rest ih =>
    have hc := h c (by simp)
    simp only [runCount, hc, if_true]
    exact ih (fun x hx => h x (by simp [hx])) false

/-- Dropping leading whitespace does not change the word count. -/
theorem runCount_dropWhile (cs : List Char) :
    runCount (cs.dropWhile isWS) false = runCount cs false := by
  induction cs with
  | nil => rfl
  | cons c rest ih =>
    cases hc : isWS c with
    | true => simp [List.dropWhile_cons, hc, runCount, ih]
    | false => simp [List.dropWhile_cons, hc]

/-- Appending trailing whitespace does not change the word count. -/
theorem runCount_append_ws (xs ys : List Char)
    (h : ∀ c ∈ ys, isWS c = true) (b : Bool) :
    runCount (xs ++ ys) b = runCount xs b := by
  induction xs generalizing b with
  | nil => simpa [runCount] using runCount_eq_zero_of_allWS ys h b
  | cons c rest ih =>
    cases hc : isWS c with
    | true => simp [runCount, hc, ih]
    | false => simp [runCount, hc, ih]

/-- Trimming does not change the word count. -/
theorem runCount_jsTrim (cs : List Char) :
    runCount (jsTrim cs) false = runCount cs false := by
  unfold jsTrim
  have h1 : runCount (cs.dropWhile isWS) false = runCount cs false :=
    runCount_dropWhile cs
  have hsplit :
      ((cs.dropWhile isWS).reverse.dropWhile isWS).reverse ++
        ((cs.dropWhile isWS).reverse.takeWhile isWS).reverse
        = cs.dropWhile isWS := by
    rw [← List.reverse_append, List.takeWhile_append_dropWhile, List.reverse_reverse]
  have hws : ∀ c ∈ ((cs.dropWhile isWS).reverse.takeWhile isWS).reverse,
      isWS c = true := by
    intro c hc
    rw [List.mem_reverse] at hc
    exact List.mem_takeWhile_imp hc
  calc runCount (((cs.dropWhile isWS).reverse.dropWhile isWS).reverse) false
      = runCount (((cs.dropWhile isWS).reverse.dropWhile isWS).reverse ++
          ((cs.dropWhile isWS).reverse.takeWhile isWS).reverse) false :=
        (runCount_append_ws _ _ hws false).symm
    _ = runCount (cs.dropWhile isWS) false := by rw [hsplit]
    _ = runCount cs false := h1

/-- On a region holding at least one word the implemented word count agrees
with the word count of the spec. -/
theorem jsWordCount_eq_specWordCount (text : List Char)
    (h : 1 ≤ specWordCount text) : jsWordCount text = specWordCount text := by
  unfold jsWordCount specWordCount
  have ht : jsTrim text ≠ [] := by
    intro he
    have h2 := runCount_jsTrim text
    rw [he] at h2
    unfold specWordCount at h
    simp only [runCount] at h2
    omega
  simp only [List.isEmpty_iff, ht, if_false]
  exact runCount_jsTrim text

/-- The marking condition of updateNavigation, as a proposition. -/
theorem navCond_iff (linkPath currentPath : String) :
    (linkPath == currentPath ||
      (currentPath.startsWith linkPath && linkPath != "/")) = true ↔
    (linkPath = currentPath ∨
      (currentPath.startsWith linkPath = true ∧ linkPath ≠ "/")) := by
  simp [Bool.or_eq_true, Bool.and_eq_true, beq_iff_eq, bne_iff_ne]

/-! ### Claim theorems -/

/-- C1: evaluation at the failing input.  A progress record stored as the
JSON text of an empty object, which is valid JSON of the wrong shape, makes
CourseProgress.set throw a TypeError instead of treating the record as
empty: its guard `progress.lessons.includes(lessonId)` runs outside the
try/catch, unlike the guarded reads in get and getAll.  In addition,
ThemeManager.getTheme returns a malformed stored theme value verbatim
instead of the default theme. -/
theorem set_throws_on_wrong_shape_record :
    CourseProgress.set (fun _ => .json (.obj [])) "c1" "l1"
        = .error .typeError ∧
    ThemeManager.getTheme
      { stored := some "banana", docTheme := none, osDark := false,
        toggleBtn := none, themeIcon := none } = "banana" :=
  ⟨rfl, rfl⟩

/-- A scroll event at the very bottom of the page. -/
def bottomScroll : ScrollEvent :=
  { scrollY := 1000, innerHeight := 800, scrollHeight := 1800 }

/-- C2: evaluation at the failing input.  With the course record stored as
the JSON text of an empty object, every bottom-reaching scroll event calls
CourseProgress.set, the call throws before writing and before `marked =
true` runs: after two qualifying events the lesson is still not marked, no
write has happened, and set has been called twice rather than once. -/
theorem scroll_handler_on_wrong_shape_record :
    reachesBottom bottomScroll = true ∧
    (runScrollEvents "c1" "l1" (fun _ => .json (.obj []))
      [bottomScroll, bottomScroll]).marked = false ∧
    (runScrollEvents "c1" "l1" (fun _ => .json (.obj []))
      [bottomScroll, bottomScroll]).writes = 0 ∧
    (runScrollEvents "c1" "l1" (fun _ => .json (.obj []))
      [bottomScroll, bottomScroll]).setCalls = 2 :=
  ⟨by decide, rfl, rfl, rfl⟩

/-- Once the latch is set the scroll handler returns immediately. -/
theorem scrollStep_of_marked (c l : String) (st : TrackState)
    (h : st.marked = true) (e : ScrollEvent) : scrollStep c l st e = st := by
  unfold scrollStep
  rw [if_pos h]

/-- Once the latch is set, any further scroll events leave the state
untouched. -/
theorem foldl_scrollStep_of_marked (c l : String) (st : TrackState)
    (h : st.marked = true) (evs : List ScrollEvent) :
    evs.foldl (scrollStep c l) st = st := by
  induction evs with
  | nil => rfl
  | cons e rest ih => rw [List.foldl_cons, scrollStep_of_marked c l st h e, ih]

/-- The latch behaviour the scroll tracking is meant to have, proved under
the condition that CourseProgress.set returns on the stored record (as it
does on an absent, unparseable or array-shaped record): over any page view,
set is called exactly once when some event reaches the 100-unit threshold
and never otherwise, at most one write happens, and the latch ends set
exactly when some event qualified. -/
theorem scroll_latch_of_set_ok (c l : String) (store : ProgressStore)
    (r : Option StoredJSON)
    (hok : CourseProgress.setVal (store c) l = .ok r)
    (evs : List ScrollEvent) :
    (runScrollEvents c l store evs).marked = evs.any reachesBottom ∧
    (runScrollEvents c l store evs).setCalls
        = (if evs.any reachesBottom then 1 else 0) ∧
    (runScrollEvents c l store evs).writes ≤ 1 := by
  induction evs with
  | nil => exact ⟨rfl, rfl, by simp [runScrollEvents, TrackState.writes]⟩
  | cons e rest ih =>
    unfold runScrollEvents at ih ⊢
    rw [List.foldl_cons]
    cases hre : reachesBottom e with
    | false =>
      have hstep : scrollStep c l
          { marked := false, store := store, setCalls := 0, writes := 0 } e
          = { marked := false, store := store, setCalls := 0, writes := 0 } := by
        unfold scrollStep
        rw [if_neg (by simp), if_neg (of_decide_eq_false hre)]
      rw [hstep]
      simpa [List.any_cons, hre] using ih
    | true =>
      have hprop : e.scrollY + e.innerHeight ≥ e.scrollHeight - 100 :=
        of_decide_eq_true hre
      have hany : (e :: rest).any reachesBottom = true := by
        simp [List.any_cons, hre]
      cases r with
      | none =>
        have hset : CourseProgress.set store c l = .ok (store, false) := by
          unfold CourseProgress.set
          rw [hok]
        have hstep : scrollStep c l
            { marked := false, store := store, setCalls := 0, writes := 0 } e
            = { marked := true, store := store, setCalls := 1, writes := 0 } := by
          unfold scrollStep
          rw [if_neg (by simp), if_pos hprop, hset]
          rfl
        rw [hstep, foldl_scrollStep_of_marked c l _ rfl rest, hany]
        exact ⟨rfl, rfl, by simp⟩
      | some sv =>
        have hset : CourseProgress.set store c l =
            .ok (fun x => if x == c then sv else store x, true) := by
          unfold CourseProgress.set
          rw [hok]
        have hstep : scrollStep c l
            { marked := false, store := store, setCalls := 0, writes := 0 } e
            = { marked := true,
                store := fun x => if x == c then sv else store x,
                setCalls := 1, writes := 1 } := by
          unfold scrollStep
          rw [if_neg (by simp), if_pos hprop, hset]
          rfl
        rw [hstep, foldl_scrollStep_of_marked c l _ rfl rest, hany]
        exact ⟨rfl, rfl, by simp⟩

/-- C3: after updateNavigation every link carries aria-current="page"
exactly when its path equals the current document path or is a non-root
path the current path begins with; every other link has the marker removed.
The link paths themselves are untouched, so the marker of each output link
is characterised by the path of the input link in the same position. -/
theorem updateNavigation_marker_iff (currentPath : String)
    (links : List NavLink) :
    (updateNavigation currentPath links).map (fun l => l.ariaCurrent) =
      links.map (fun l =>
        if l.path = currentPath ∨
            (currentPath.startsWith l.path = true ∧ l.path ≠ "/") then
          some "page"
        else none) ∧
    (updateNavigation currentPath links).map (fun l => l.path) =
      links.map (fun l => l.path) := by
  constructor
  · unfold updateNavigation
    rw [List.map_map]
    apply List.map_congr_left
    intro a _
    simp only [Function.comp_apply]
    by_cases hp : a.path = currentPath ∨
        (currentPath.startsWith a.path = true ∧ a.path ≠ "/")
    · rw [if_pos ((navCond_iff a.path currentPath).mpr hp), if_pos hp]
    · rw [if_neg (fun hb => hp ((navCond_iff a.path currentPath).mp hb)),
        if_neg hp]
  · unfold updateNavigation
    rw [List.map_map]
    apply List.map_congr_left
    intro a _
    simp only [Function.comp_apply]
    by_cases hc : (a.path == currentPath ||
        (currentPath.startsWith a.path && a.path != "/")) = true
    · rw [if_pos hc]
    · rw [if_neg hc]

/-- A page state with nothing persisted, no theme attribute, a light OS
preference and no toggle button elements. -/
def plainThemeState : ThemeState :=
  { stored := none, docTheme := none, osDark := false,
    toggleBtn := none, themeIcon := none }

/-- C4 counterexample: starting from a state with no persisted theme value,
toggling twice ends with "light" persisted, not the original absent value,
so toggling twice does not restore every starting persisted value. -/
theorem theme_toggle_twice_counterexample :
    (ThemeManager.toggle (ThemeManager.toggle plainThemeState)).stored
      ≠ plainThemeState.stored := by decide

/-- C4 amended: from every state whose persisted value is "light" or "dark"
and whose document attribute agrees with it, which is the state every
setTheme call establishes, toggling twice restores both the persisted value
and the document attribute. -/
theorem theme_toggle_twice_restores (s : ThemeState)
    (h1 : s.stored = some "light" ∨ s.stored = some "dark")
    (h2 : s.docTheme = s.stored) :
    (ThemeManager.toggle (ThemeManager.toggle s)).stored = s.stored ∧
    (ThemeManager.toggle (ThemeManager.toggle s)).docTheme = s.docTheme := by
  rcases h1 with h | h
  · have g1 : ThemeManager.getTheme s = "light" := by
      unfold ThemeManager.getTheme
      rw [h]
      simp
    have e1 : ThemeManager.toggle s = ThemeManager.setTheme s "dark" := by
      simp [ThemeManager.toggle, g1]
    have g2 : ThemeManager.getTheme (ThemeManager.setTheme s "dark")
        = "dark" := by
      unfold ThemeManager.getTheme
      rw [setTheme_stored]
      simp
    have e2 : ThemeManager.toggle (ThemeManager.setTheme s "dark")
        = ThemeManager.setTheme (ThemeManager.setTheme s "dark") "light" := by
      simp [ThemeManager.toggle, g2]
    rw [e1, e2, setTheme_stored, setTheme_docTheme, h, h2, h]
    exact ⟨rfl, rfl⟩
  · have g1 : ThemeManager.getTheme s = "dark" := by
      unfold ThemeManager.getTheme
      rw [h]
      simp
    have e1 : ThemeManager.toggle s = ThemeManager.setTheme s "light" := by
      simp [ThemeManager.toggle, g1]
    have g2 : ThemeManager.getTheme (ThemeManager.setTheme s "light")
        = "light" := by
      unfold ThemeManager.getTheme
      rw [setTheme_stored]
      simp
    have e2 : ThemeManager.toggle (ThemeManager.setTheme s "light")
        = ThemeManager.setTheme (ThemeManager.setTheme s "light") "dark" := by
      simp [ThemeManager.toggle, g2]
    rw [e1, e2, setTheme_stored, setTheme_docTheme, h, h2, h]
    exact ⟨rfl, rfl⟩

/-- A state as setTheme leaves it, with "light" persisted and displayed. -/
def lightThemeState : ThemeState :=
  { stored := some "light", docTheme := some "light", osDark := false,
    toggleBtn := none, themeIcon := none }

/-- C4 witness: the amended round trip at a concrete state. -/
theorem theme_toggle_twice_restores_witness :
    (ThemeManager.toggle (ThemeManager.toggle lightThemeState)).stored
        = lightThemeState.stored ∧
    (ThemeManager.toggle (ThemeManager.toggle lightThemeState)).docTheme
        = lightThemeState.docTheme :=
  theme_toggle_twice_restores lightThemeState (Or.inl rfl) rfl

/-- C5: an OS preference-change notification moves the persisted and
displayed theme to the value matching the notification exactly when no user
preference is persisted; with a persisted preference it changes neither.
The stored empty string is excluded: every value the script persists comes
from setTheme with "light" or "dark". -/
theorem os_change_only_without_stored (s : ThemeState) (m : Bool)
    (h : s.stored ≠ some "") :
    (s.stored = none →
      (ThemeManager.onSystemThemeChange s m).stored
          = some (if m then "dark" else "light") ∧
      (ThemeManager.onSystemThemeChange s m).docTheme
          = some (if m then "dark" else "light")) ∧
    (s.stored ≠ none →
      (ThemeManager.onSystemThemeChange s m).stored = s.stored ∧
      (ThemeManager.onSystemThemeChange s m).docTheme = s.docTheme) := by
  cases hs : s.stored with
  | none =>
    constructor
    · intro _
      unfold ThemeManager.onSystemThemeChange
      rw [hs]
      exact ⟨setTheme_stored _ _, setTheme_docTheme _ _⟩
    · intro hne
      exact absurd rfl hne
  | some v =>
    have hv : v ≠ "" := by
      intro he
      exact h (by rw [hs, he])
    constructor
    · intro h0
      exact absurd h0 (by simp)
    · intro _
      have hbne : (v != "") = true := by simpa using hv
      unfold ThemeManager.onSystemThemeChange
      rw [hs]
      simp only [hbne, if_true]
      exact ⟨trivial, trivial⟩

/-- C5 witness: a notification for dark on a state with nothing persisted. -/
theorem os_change_only_without_stored_witness :
    (plainThemeState.stored = none →
      (ThemeManager.onSystemThemeChange plainThemeState true).stored
          = some (if true then "dark" else "light") ∧
      (ThemeManager.onSystemThemeChange plainThemeState true).docTheme
          = some (if true then "dark" else "light")) ∧
    (plainThemeState.stored ≠ none →
      (ThemeManager.onSystemThemeChange plainThemeState true).stored
          = plainThemeState.stored ∧
      (ThemeManager.onSystemThemeChange plainThemeState true).docTheme
          = plainThemeState.docTheme) :=
  os_change_only_without_stored plainThemeState true (by decide)

/-- Reading the course key just written. -/
theorem updateStore_self (store : ProgressStore) (c : String)
    (sv : StoredJSON) : (fun x => if x == c then sv else store x) c = sv := by
  simp

/-- C6: set and unset, the two writing operations (get and getAll never
write), keep every duplicate-free completion set duplicate-free, on the
course operated on and on every other course; and set on a record whose
completion set already contains the lesson returns without appending and
without writing. -/
theorem courseProgress_nodup_invariant (store : ProgressStore)
    (c l c2 : String) (h : (completionSet (store c2)).Nodup) :
    (completionSet (CourseProgress.setAfter store c l c2)).Nodup ∧
    (completionSet (CourseProgress.unset store c l c2)).Nodup ∧
    (JSVal.str l ∈ completionSet (store c) →
      CourseProgress.set store c l = .ok (store, false)) := by
  refine ⟨?_, ?_, ?_⟩
  · unfold CourseProgress.setAfter CourseProgress.set
    cases hsv : CourseProgress.setVal (store c) l with
    | error e => exact h
    | ok o =>
      cases o with
      | none => exact h
      | some sv =>
        dsimp only
        by_cases hc : c2 = c
        · subst hc
          rw [if_pos (by simp)]
          exact setVal_some_nodup (store c2) l sv hsv h
        · rw [if_neg (by simp [hc])]
          exact h
  · unfold CourseProgress.unset
    cases hsv : CourseProgress.unsetVal (store c) l with
    | none => exact h
    | some sv =>
      dsimp only
      by_cases hc : c2 = c
      · subst hc
        rw [if_pos (by simp)]
        exact unsetVal_some_nodup (store c2) l sv hsv h
      · rw [if_neg (by simp [hc])]
        exact h
  · intro hm
    unfold CourseProgress.set
    rw [setVal_of_mem (store c) l hm]

/-- C6 witness: the invariant applied to the empty store. -/
theorem courseProgress_nodup_invariant_witness :
    (completionSet
      (CourseProgress.setAfter (fun _ => .absent) "c1" "l1" "c1")).Nodup ∧
    (completionSet
      (CourseProgress.unset (fun _ => .absent) "c1" "l1" "c1")).Nodup ∧
    (JSVal.str "l1" ∈ completionSet ((fun _ => .absent : ProgressStore) "c1") →
      CourseProgress.set (fun _ => .absent) "c1" "l1"
        = .ok (fun _ => .absent, false)) :=
  courseProgress_nodup_invariant (fun _ => .absent) "c1" "l1" "c1"
    List.nodup_nil

/-- C7: the tracker exposes unset alongside get, set and getAll; marking a
lesson of a course with no stored record complete and then unmarking it
leaves a stored completion set equal to the empty set, which getAll reports
as the empty array. -/
theorem set_then_unset_empty (store : ProgressStore) (c l : String)
    (h : store c = .absent) :
    completionSet
        (CourseProgress.unset (CourseProgress.setAfter store c l) c l c) = [] ∧
    CourseProgress.getAll
        (CourseProgress.unset (CourseProgress.setAfter store c l) c l) c
      = .arr [] := by
  have h1 : CourseProgress.setAfter store c l c
      = .json (.obj [("lessons", .arr [.str l])]) := by
    unfold CourseProgress.setAfter CourseProgress.set
    rw [h, setVal_absent]
    dsimp only
    rw [if_pos (by simp)]
  have h3 : CourseProgress.unsetVal (.json (.obj [("lessons", .arr [.str l])])) l
      = some (.json (.obj [("lessons", .arr [])])) := by
    simp [CourseProgress.unsetVal, getField, lookupField, filterNeqCall,
      jsStrEq, setField, setFieldList]
  have h2 : CourseProgress.unset (CourseProgress.setAfter store c l) c l c
      = .json (.obj [("lessons", .arr [])]) := by
    unfold CourseProgress.unset
    rw [h1, h3]
    dsimp only
    rw [if_pos (by simp)]
  constructor
  · rw [h2]
    simp [completionSet, lookupField]
  · unfold CourseProgress.getAll
    rw [h2]
    simp [CourseProgress.getAllVal, getField, lookupField, truthy]

/-- C7 witness: the round trip on the empty store. -/
theorem set_then_unset_empty_witness :
    completionSet
        (CourseProgress.unset
          (CourseProgress.setAfter (fun _ => .absent) "c1" "l1")
          "c1" "l1" "c1") = [] ∧
    CourseProgress.getAll
        (CourseProgress.unset
          (CourseProgress.setAfter (fun _ => .absent) "c1" "l1") "c1" "l1")
        "c1" = .arr [] :=
  set_then_unset_empty (fun _ => .absent) "c1" "l1" rfl

/-- C9: a resize notification above the 768 breakpoint while the menu is
open, with the toggle button and icon present, leaves the menu closed, the
toggle carrying aria-expanded false and the icon restored to the
closed-state glyph. -/
theorem mobileMenu_resize_closes (d : MenuDom) (w : Int)
    (hb : d.togglePresent = true) (hi : d.menuIcon.isSome = true)
    (hopen : MobileMenu.isOpen d = true) (hw : 768 < w) :
    MobileMenu.isOpen (MobileMenu.onResize d w) = false ∧
    (MobileMenu.onResize d w).ariaExpanded = some "false" ∧
    (MobileMenu.onResize d w).menuIcon = some "menu" := by
  obtain ⟨cls, hcls⟩ : ∃ cls, d.navList = some cls := by
    cases hnv : d.navList with
    | none => simp [MobileMenu.isOpen, hnv] at hopen
    | some cls => exact ⟨cls, rfl⟩
  obtain ⟨ic, hic⟩ : ∃ x, d.menuIcon = some x := Option.isSome_iff_exists.mp hi
  have hresize : MobileMenu.onResize d w = MobileMenu.close d := by
    unfold MobileMenu.onResize
    rw [if_pos (by simp [hopen, hw])]
  have hclose : MobileMenu.close d =
      { d with navList := some (cls.filter (fun s => s != "is-open")),
               ariaExpanded := some "false", menuIcon := some "menu" } := by
    unfold MobileMenu.close
    rw [hb, hcls, hic]
  rw [hresize, hclose]
  refine ⟨?_, rfl, rfl⟩
  simp [MobileMenu.isOpen, List.contains_eq_any_beq, List.any_eq_true,
    List.mem_filter]

/-- An open mobile menu with all elements present. -/
def openMenuDom : MenuDom :=
  { togglePresent := true, ariaExpanded := some "true",
    navList := some ["is-open"], menuIcon := some "close" }

/-- C9 witness: a concrete resize to 1024 while open. -/
theorem mobileMenu_resize_closes_witness :
    MobileMenu.isOpen (MobileMenu.onResize openMenuDom 1024) = false ∧
    (MobileMenu.onResize openMenuDom 1024).ariaExpanded = some "false" ∧
    (MobileMenu.onResize openMenuDom 1024).menuIcon = some "menu" :=
  mobileMenu_resize_closes openMenuDom 1024 rfl rfl (by decide) (by decide)

/-- A well-formed stored record for one course: nothing stored yet, or an
object whose lessons field is an array. -/
def WellFormedRecord (sv : StoredJSON) : Prop :=
  sv = .absent ∨
    ∃ fs la, sv = .json (.obj fs) ∧ lookupField fs "lessons" = some (.arr la)

/-- C10: on a well-formed record, set followed by get reports the lesson
complete, getAll contains it, and a second set returns the same store with
no write performed. -/
theorem set_get_getAll_coherent (store : ProgressStore) (c l : String)
    (h : WellFormedRecord (store c)) :
    ∃ store1 wrote,
      CourseProgress.set store c l = .ok (store1, wrote) ∧
      CourseProgress.get store1 c l = .bool true ∧
      (∃ ls, CourseProgress.getAll store1 c = .arr ls ∧ JSVal.str l ∈ ls) ∧
      CourseProgress.set store1 c l = .ok (store1, false) := by
  rcases h with h | ⟨fs, la, hsv, hlk⟩
  · -- nothing stored: set writes the singleton record
    have hset : CourseProgress.set store c l =
        .ok (fun x => if x == c
              then .json (.obj [("lessons", .arr [.str l])]) else store x,
            true) := by
      unfold CourseProgress.set
      rw [h, setVal_absent]
    refine ⟨_, _, hset, ?_, ?_, ?_⟩
    · unfold CourseProgress.get
      rw [updateStore_self]
      simp [CourseProgress.getVal, getField, lookupField, truthy,
        includesCall, jsStrEq]
    · unfold CourseProgress.getAll
      rw [updateStore_self]
      exact ⟨[.str l], by simp [CourseProgress.getAllVal, getField,
        lookupField, truthy], by simp⟩
    · unfold CourseProgress.set
      rw [updateStore_self, setVal_of_mem _ l (by simp [completionSet,
        lookupField])]
  · cases hany : la.any (fun e => jsStrEq e l) with
    | true =>
      -- the lesson is already recorded: no write at all
      have hset : CourseProgress.set store c l = .ok (store, false) := by
        unfold CourseProgress.set
        rw [hsv, setVal_obj_arr_mem fs la l hlk hany]
      obtain ⟨e, he, heq⟩ := List.any_eq_true.mp hany
      have hel : e = .str l := (jsStrEq_eq_true_iff e l).mp heq
      subst hel
      refine ⟨_, _, hset, ?_, ?_, hset⟩
      · unfold CourseProgress.get
        rw [hsv]
        simp [CourseProgress.getVal, getField, hlk, truthy, includesCall,
          hany]
      · unfold CourseProgress.getAll
        rw [hsv]
        exact ⟨la, by simp [CourseProgress.getAllVal, getField, hlk, truthy],
          he⟩
    | false =>
      -- the lesson is new: one write appends it
      have hset : CourseProgress.set store c l =
          .ok (fun x => if x == c
                then .json (.obj (setFieldList fs "lessons"
                  (.arr (la ++ [.str l]))))
                else store x,
              true) := by
        unfold CourseProgress.set
        rw [hsv, setVal_obj_arr_push fs la l hlk hany]
      refine ⟨_, _, hset, ?_, ?_, ?_⟩
      · unfold CourseProgress.get
        rw [updateStore_self]
        simp [CourseProgress.getVal, getField,
          lookupField_setFieldList fs "lessons" _, truthy, includesCall,
          List.any_append, jsStrEq]
      · unfold CourseProgress.getAll
        rw [updateStore_self]
        refine ⟨la ++ [.str l], ?_, by simp⟩
        simp [CourseProgress.getAllVal, getField,
          lookupField_setFieldList fs "lessons" _, truthy]
      · unfold CourseProgress.set
        rw [updateStore_self, setVal_of_mem _ l ?_]
        rw [completionSet_obj_arr _ _ (lookupField_setFieldList fs "lessons" _)]
        simp

/-- C10 witness: the coherence chain on the empty store. -/
theorem set_get_getAll_coherent_witness :
    ∃ store1 wrote,
      CourseProgress.set (fun _ => .absent) "c1" "l1" = .ok (store1, wrote) ∧
      CourseProgress.get store1 "c1" "l1" = .bool true ∧
      (∃ ls, CourseProgress.getAll store1 "c1" = .arr ls ∧
        JSVal.str "l1" ∈ ls) ∧
      CourseProgress.set store1 "c1" "l1" = .ok (store1, false) :=
  set_get_getAll_coherent (fun _ => .absent) "c1" "l1" (Or.inl rfl)

/-- C8 counterexample: an empty content region has word count zero, so the
claimed formula renders "0 min read", but the script splits the empty
trimmed text into one empty token and renders "1 min read". -/
theorem calculateReadTime_formula_counterexample :
    specWordCount [] = 0 ∧
    calculateReadTime (some []) [⟨some "x"⟩] = [⟨some "1 min read"⟩] ∧
    toString (readingTimeOf (specWordCount [])) ++ " min read"
      ≠ "1 min read" :=
  ⟨rfl, rfl, by decide⟩

/-- C8 amended: for every content region holding at least one word, every
marker element with a .read-time-text child renders the ceiling of the word
count over 200 as "N min read", and markers without the child are left
unchanged. -/
theorem calculateReadTime_formula (text : List Char)
    (markers : List ReadTimeMarker) (h : 1 ≤ specWordCount text) :
    (calculateReadTime (some text) markers).map (fun el => el.readTimeText) =
      markers.map (fun el => el.readTimeText.map
        (fun _ => toString (readingTimeOf (specWordCount text))
          ++ " min read")) := by
  unfold calculateReadTime
  rw [List.map_map]
  apply List.map_congr_left
  intro a _
  simp only [Function.comp_apply]
  cases hrt : a.readTimeText with
  | none => simp [hrt]
  | some t => simp [hrt, jsWordCount_eq_specWordCount text h]

/-- A 400-word region: 400 copies of a one-letter word. -/
def wordRegion400 : List Char := (List.replicate 400 ['w', ' ']).flatten

set_option maxRecDepth 40000 in
/-- C8 witness: the amended formula at the 400-word region of the spec
scenario, rendering "2 min read". -/
theorem calculateReadTime_formula_witness :
    (calculateReadTime (some wordRegion400) [⟨some "t"⟩]).map
        (fun el => el.readTimeText) =
      [(⟨some "t"⟩ : ReadTimeMarker)].map (fun el => el.readTimeText.map
        (fun _ => toString (readingTimeOf (specWordCount wordRegion400))
          ++ " min read")) ∧
    toString (readingTimeOf (specWordCount wordRegion400)) ++ " min read"
      = "2 min read" :=
  ⟨calculateReadTime_formula wordRegion400 [⟨some "t"⟩] (by decide),
    by decide⟩

end LearnWeb

